import Mathlib

/-
  Verification development for the "RetroSnap" polaroid camera wall app.

  Shallow embedding of the photo lifecycle controller (src/App.tsx),
  the storage service (storageService: getUserPhotos, getGlobalGallery,
  compressImage) and the development-progress logic of the
  DraggablePolaroid component.

  Conventions of the embedding:
  * TypeScript `number` fields are modelled as ℚ (coordinates, progress) or
    ℤ (timestamps); JavaScript truthiness of a number is `= 0` (NaN is not
    modelled).
  * Optional TS fields (`caption?`, `isPublic?`, ...) are `Option` fields;
    JS truthiness of an optional boolean is `Option.getD false`.
  * `Math.random()` results are passed in as explicit ℚ parameters.
  * Asynchronous collaborator results (caption text, restyled image, the
    remote fetch) are passed in as explicit values, and each handler is
    split into the synchronous phases the code actually runs (before the
    await / after the await settles).
  * The JavaScript `Map` used for gallery dedup is modelled as an
    association list with `Map.set` insertion-order semantics: setting an
    existing key overwrites the value in place, a new key is appended, and
    `Array.from(map.values())` reads the values in that order.
-/

/-- The `location` field of `Photo` (src/types.ts): latitude, longitude and
optional city/country. -/
structure PhotoLocation where
  lat : ℚ
  lng : ℚ
  city : Option String := none
  country : Option String := none
deriving DecidableEq, Repr

/-- The `Photo` interface of src/types.ts. -/
structure Photo where
  id : String
  dataUrl : String
  timestamp : ℤ
  x : ℚ
  y : ℚ
  rotation : ℚ
  caption : Option String := none
  isGeneratingCaption : Option Bool := none
  isPublic : Option Bool := none
  developmentProgress : Option ℚ := none
  location : Option PhotoLocation := none
deriving DecidableEq, Repr

/-- JS truthiness test `!p.location || !p.location.lat` from
`handleToggleShare` (src/App.tsx line 139): true when the location is
absent or its latitude is the falsy number 0. -/
def locationLatMissing (loc : Option PhotoLocation) : Bool :=
  match loc with
  | none => true
  | some l => decide (l.lat = 0)

/-- The placeholder location synthesized by `handleToggleShare`
(src/App.tsx lines 140-144): `35.6762 + (Math.random() - 0.5)` /
`139.6503 + (Math.random() - 0.5)`, city "Unknown".  `r1`, `r2` stand for
the two `Math.random()` draws. -/
def synthesizedLocation (r1 r2 : ℚ) : PhotoLocation :=
  { lat := 356762 / 10000 + (r1 - 1 / 2)
  , lng := 1396503 / 10000 + (r2 - 1 / 2)
  , city := some "Unknown"
  , country := none }

/-- The per-photo transform inside `handleToggleShare`'s `prev.map`
(src/App.tsx lines 133-162), ignoring the toast / cloud-upload side
effects, which do not touch the collection. -/
def toggleSharePhoto (r1 r2 : ℚ) (targetId : String) (p : Photo) : Photo :=
  if p.id = targetId then
    let isNowPublic := !(p.isPublic.getD false)
    let updatedLoc : Option PhotoLocation :=
      if isNowPublic && locationLatMissing p.location then
        some (synthesizedLocation r1 r2)
      else p.location
    { p with isPublic := some isNowPublic, location := updatedLoc }
  else p

/-- `handleToggleShare` (src/App.tsx lines 131-165): the state update
applied to the active collection. -/
def handleToggleShare (r1 r2 : ℚ) (targetId : String) (photos : List Photo) :
    List Photo :=
  photos.map (toggleSharePhoto r1 r2 targetId)

/-- `updatePhotoPosition` (src/App.tsx lines 101-103). -/
def updatePhotoPosition (targetId : String) (x y : ℚ) (photos : List Photo) :
    List Photo :=
  photos.map (fun p => if p.id = targetId then { p with x := x, y := y } else p)

/-- `updatePhotoProgress` (src/App.tsx lines 105-107): unconditional
overwrite of `developmentProgress` for the matching photo. -/
def updatePhotoProgress (targetId : String) (progress : ℚ)
    (photos : List Photo) : List Photo :=
  photos.map (fun p =>
    if p.id = targetId then { p with developmentProgress := some progress } else p)

/-- `deletePhoto` (src/App.tsx lines 109-111). -/
def deletePhoto (targetId : String) (photos : List Photo) : List Photo :=
  photos.filter (fun p => p.id ≠ targetId)

/-- The two event sources mutating the `developmentProgress` component state
of `DraggablePolaroid`: the 100 ms auto-develop timer tick and a fast-shake
boost during a drag. -/
inductive DevEvent where
  | tick
  | shake
deriving DecidableEq, Repr

/-- One progress update: the timer runs
`setDevelopmentProgress(prev => Math.min(prev + 0.5, 100))` and the shake
branch runs `setDevelopmentProgress(prev => Math.min(prev + 2, 100))`
(DraggablePolaroid, auto-develop effect and shake-detection logic). -/
def applyDevEvent (prev : ℚ) : DevEvent → ℚ
  | DevEvent.tick => min (prev + 1 / 2) 100
  | DevEvent.shake => min (prev + 2) 100

/-- Running a sequence of timer ticks and shake boosts from a starting
progress value. -/
def runDev (start : ℚ) (events : List DevEvent) : ℚ :=
  events.foldl applyDevEvent start

/-- The new `Photo` record built by `handleCapture` (src/App.tsx lines
73-85): fresh id, the captured data URL, viewport-dependent start position,
random rotation, empty caption, `isGeneratingCaption = true`,
`isPublic = false`, ambient location, `developmentProgress = 0`. -/
def capturePhoto (id dataUrl : String) (now : ℤ) (startX startY rot : ℚ)
    (ambient : Option PhotoLocation) : Photo :=
  { id := id
  , dataUrl := dataUrl
  , timestamp := now
  , x := startX
  , y := startY
  , rotation := rot
  , caption := some ""
  , isGeneratingCaption := some true
  , isPublic := some false
  , location := ambient
  , developmentProgress := some 0 }

/-- First synchronous phase of `handleCapture` (src/App.tsx line 87):
`setPhotos(prev => [...prev, newPhoto])`. -/
def handleCaptureInsert (newPhoto : Photo) (photos : List Photo) :
    List Photo :=
  photos ++ [newPhoto]

/-- Second phase of `handleCapture` (src/App.tsx lines 89-98), run when the
awaited `generatePhotoCaption` call settles. `some caption` is the
successful await; `none` is the catch branch, which clears
`isGeneratingCaption` and leaves the caption untouched. -/
def resolveCaption (targetId : String) (result : Option String)
    (photos : List Photo) : List Photo :=
  match result with
  | some caption =>
      photos.map (fun p =>
        if p.id = targetId then
          { p with caption := some caption, isGeneratingCaption := some false }
        else p)
  | none =>
      photos.map (fun p =>
        if p.id = targetId then { p with isGeneratingCaption := some false }
        else p)

/-- JavaScript `newImageData || p.dataUrl` (src/App.tsx line 124): `null`
and the empty string are falsy, anything else wins. -/
def jsOrElse (newData : Option String) (old : String) : String :=
  match newData with
  | none => old
  | some s => if s = "" then old else s

/-- First synchronous phase of `handleEditPhoto` (src/App.tsx lines
114-116): mark the target photo as pending. -/
def editPhotoStart (targetId : String) (photos : List Photo) : List Photo :=
  photos.map (fun p =>
    if p.id = targetId then { p with isGeneratingCaption := some true } else p)

/-- Second phase of `handleEditPhoto` (src/App.tsx lines 121-127), run when
the awaited `editPhotoStyle` call settles with `newImageData` (`none` is
the null/failed result — `editPhotoStyle` catches its own errors and
returns null). -/
def editPhotoFinish (targetId : String) (newImageData : Option String)
    (photos : List Photo) : List Photo :=
  photos.map (fun p =>
    if p.id = targetId then
      { p with dataUrl := jsOrElse newImageData p.dataUrl
             , isGeneratingCaption := some false }
    else p)

/-- `handleEditPhoto` (src/App.tsx lines 113-129): mark pending, then — only
if `photos.find` located the target — await the restyle and patch the
result in. -/
def handleEditPhoto (targetId : String) (newImageData : Option String)
    (photos : List Photo) : List Photo :=
  let started := editPhotoStart targetId photos
  if photos.any (fun p => p.id = targetId) then
    editPhotoFinish targetId newImageData started
  else started

/-- The dimension computation of `compressImage` (storageService,
src/App.tsx input lines 259-292): given the decoded image's width and
height and the `maxWidth` parameter (default 800), produce the canvas
dimensions.  The actual canvas re-encode step is the opaque browser
collaborator and is not modelled. -/
def compressImageDims (width height maxWidth : ℚ) : ℚ × ℚ :=
  if width > height then
    if width > maxWidth then (maxWidth, height * (maxWidth / width))
    else (width, height)
  else
    if height > maxWidth then (width * (maxWidth / height), maxWidth)
    else (width, height)

/-- `storageService.getUserPhotos` (storageService, src/App.tsx input lines
338-345): `stored ? JSON.parse(stored) : []` inside a try/catch returning
`[]`.  `stored` is the raw `localStorage.getItem` result (`none` = key
absent); `parsePhotos` is the external `JSON.parse` collaborator, whose
throw is an `Except.error`.  JS truthiness makes the empty string take the
`[]` branch directly. -/
def getUserPhotos (stored : Option String)
    (parsePhotos : String → Except String (List Photo)) : List Photo :=
  match stored with
  | none => []
  | some s =>
      if s = "" then []
      else
        match parsePhotos s with
        | Except.ok l => l
        | Except.error _ => []

/-- `Map.set` on a JavaScript `Map` modelled as an association list: an
existing key's value is overwritten in place, a fresh key is appended. -/
def jsMapSet (m : List (String × Photo)) (k : String) (v : Photo) :
    List (String × Photo) :=
  if k ∈ m.map Prod.fst then
    m.map (fun kv => if kv.1 = k then (k, v) else kv)
  else m ++ [(k, v)]

/-- Folding a photo list into the map, keyed by id — this is both
`new Map(remotePhotos.map(p => [p.id, p]))` (starting from the empty map)
and `userPublic.forEach(p => galleryMap.set(p.id, p))` in
`getGlobalGallery` (storageService, src/App.tsx input lines 407-409). -/
def jsMapSetAll (m : List (String × Photo)) (ps : List Photo) :
    List (String × Photo) :=
  ps.foldl (fun acc p => jsMapSet acc p.id p) m

/-- First entry of INITIAL_COMMUNITY_PHOTOS (storageService, src/App.tsx
input lines 295-300); `now` stands for the `Date.now()` module-load time. -/
def caseTokyo (now : ℤ) : Photo :=
  { id := "case-tokyo"
  , dataUrl := "https://images.unsplash.com/photo-1540959733332-eab4deabeeaf?q=80&w=600&auto=format&fit=crop"
  , timestamp := now, x := 0, y := 0, rotation := -2
  , caption := some "Neon nights 🍜", isPublic := some true
  , developmentProgress := some 100
  , location := some { lat := 356938 / 10000, lng := 1397035 / 10000, city := some "Tokyo" } }

/-- Second entry of INITIAL_COMMUNITY_PHOTOS. -/
def caseParis (now : ℤ) : Photo :=
  { id := "case-paris"
  , dataUrl := "https://images.unsplash.com/photo-1502602898657-3e91760cbb34?q=80&w=600&auto=format&fit=crop"
  , timestamp := now, x := 0, y := 0, rotation := 3
  , caption := some "Bonjour Paris ☕", isPublic := some true
  , developmentProgress := some 100
  , location := some { lat := 488584 / 10000, lng := 22945 / 10000, city := some "Paris" } }

/-- Third entry of INITIAL_COMMUNITY_PHOTOS. -/
def caseIceland (now : ℤ) : Photo :=
  { id := "case-iceland"
  , dataUrl := "https://images.unsplash.com/photo-1476610182048-b716b8518aae?q=80&w=600&auto=format&fit=crop"
  , timestamp := now, x := 0, y := 0, rotation := 4
  , caption := some "Ice & Fire 🌊", isPublic := some true
  , developmentProgress := some 100
  , location := some { lat := 649631 / 10000, lng := -190208 / 10000, city := some "Iceland" } }

/-- Fourth entry of INITIAL_COMMUNITY_PHOTOS. -/
def caseRio (now : ℤ) : Photo :=
  { id := "case-rio"
  , dataUrl := "https://images.unsplash.com/photo-1483729558449-99ef09a8c325?q=80&w=600&auto=format&fit=crop"
  , timestamp := now, x := 0, y := 0, rotation := 2
  , caption := some "Carnival! 💃", isPublic := some true
  , developmentProgress := some 100
  , location := some { lat := -229519 / 10000, lng := -432105 / 10000, city := some "Rio" } }

/-- The curated seed set `INITIAL_COMMUNITY_PHOTOS` (storageService,
src/App.tsx input lines 295-300). -/
def INITIAL_COMMUNITY_PHOTOS (now : ℤ) : List Photo :=
  [caseTokyo now, caseParis now, caseIceland now, caseRio now]

/-- `storageService.getGlobalGallery` (storageService, src/App.tsx input
lines 385-412).  `remoteFetched` is what step 1 (the cloud query) yielded —
`[]` when the backend is disabled, empty, or the fetch failed; `pool` is
`getSharedPoolLocal()`; `user` is `getUserPhotos()`.  Step 2 substitutes
the seed set plus the local fallback pool when the remote list is empty;
step 3 merges in the user's own public photos, dedup'd by id through the
`Map`. -/
def getGlobalGallery (now : ℤ) (remoteFetched pool user : List Photo) :
    List Photo :=
  let remotePhotos :=
    if remoteFetched.length = 0 then INITIAL_COMMUNITY_PHOTOS now ++ pool
    else remoteFetched
  let userPublic := user.filter (fun p => p.isPublic.getD false)
  (jsMapSetAll (jsMapSetAll [] remotePhotos) userPublic).map Prod.snd

/-- Invariant of the gallery map: every entry's key is its photo's id. -/
def goodMap (m : List (String × Photo)) : Prop :=
  ∀ kv ∈ m, kv.2.id = kv.1

/- ------------------------------------------------------------------ -/
/- Lemmas                                                              -/
/- ------------------------------------------------------------------ -/

lemma toggleSharePhoto_of_ne (r1 r2 : ℚ) (targetId : String) (p : Photo)
    (h : p.id ≠ targetId) : toggleSharePhoto r1 r2 targetId p = p := by
  simp [toggleSharePhoto, h]

lemma toggleSharePhoto_location_isSome (r1 r2 : ℚ) (targetId : String)
    (p : Photo) (hfalse : p.isPublic.getD false = false)
    (htrue : (toggleSharePhoto r1 r2 targetId p).isPublic = some true) :
    (toggleSharePhoto r1 r2 targetId p).location.isSome = true := by
  by_cases hid : p.id = targetId
  · simp only [toggleSharePhoto, hid, if_pos rfl, hfalse]
    cases hloc : p.location with
    | none => simp [locationLatMissing, hloc]
    | some l =>
        by_cases hl : l.lat = 0
        · simp [locationLatMissing, hloc, hl]
        · simp [locationLatMissing, hloc, hl]
  · rw [toggleSharePhoto_of_ne r1 r2 targetId p hid] at htrue
    rw [htrue] at hfalse
    simp at hfalse

lemma applyDevEvent_le_100 (prev : ℚ) (e : DevEvent) :
    applyDevEvent prev e ≤ 100 := by
  cases e <;> simp [applyDevEvent]

lemma le_applyDevEvent (prev : ℚ) (h : prev ≤ 100) (e : DevEvent) :
    prev ≤ applyDevEvent prev e := by
  cases e <;> simp [applyDevEvent, le_min_iff] <;> linarith

lemma runDev_le_100 (start : ℚ) (h : start ≤ 100) (events : List DevEvent) :
    runDev start events ≤ 100 := by
  induction events generalizing start with
  | nil => exact h
  | cons e es ih =>
      simpa [runDev, List.foldl_cons] using
        ih (applyDevEvent start e) (applyDevEvent_le_100 start e)

lemma le_runDev (start : ℚ) (h : start ≤ 100) (events : List DevEvent) :
    start ≤ runDev start events := by
  induction events generalizing start with
  | nil => simp [runDev]
  | cons e es ih =>
      have h1 : start ≤ applyDevEvent start e := le_applyDevEvent start h e
      have h2 : applyDevEvent start e ≤ runDev (applyDevEvent start e) es :=
        ih (applyDevEvent start e) (applyDevEvent_le_100 start e)
      simpa [runDev, List.foldl_cons] using le_trans h1 h2

lemma runDev_take_mono (start : ℚ) (h : start ≤ 100) (events : List DevEvent)
    (n m : ℕ) (hnm : n ≤ m) :
    runDev start (events.take n) ≤ runDev start (events.take m) := by
  have hsplit : events.take m = events.take n ++ (events.take m).drop n := by
    conv_lhs => rw [← List.take_append_drop n (events.take m)]
    rw [List.take_take, min_eq_left hnm]
  rw [hsplit]
  simp only [runDev, List.foldl_append]
  have hstart : runDev start (events.take n) ≤ 100 :=
    runDev_le_100 start h (events.take n)
  exact le_runDev (runDev start (events.take n)) hstart ((events.take m).drop n)

lemma map_id_of_unknown_id (targetId : String) (photos : List Photo)
    (f : Photo → Photo) (h : ∀ p ∈ photos, p.id ≠ targetId) :
    photos.map (fun p => if p.id = targetId then f p else p) = photos := by
  have : ∀ p ∈ photos, (fun p => if p.id = targetId then f p else p) p = p := by
    intro p hp
    simp [h p hp]
  rw [List.map_congr_left this]; exact List.map_id photos

lemma jsMapSet_self_mem (m : List (String × Photo)) (k : String) (v : Photo) :
    (k, v) ∈ jsMapSet m k v := by
  by_cases hk : k ∈ m.map Prod.fst
  · rw [jsMapSet, if_pos hk]
    rcases List.mem_map.mp hk with ⟨kv0, hkv0, heq⟩
    refine List.mem_map.mpr ⟨kv0, hkv0, ?_⟩
    rw [if_pos heq]
  · rw [jsMapSet, if_neg hk]
    exact List.mem_append_right m (List.mem_singleton_self (k, v))

lemma jsMapSet_mem_of_ne (m : List (String × Photo)) (k : String) (v : Photo)
    (kv : String × Photo) (h1 : kv ∈ m) (h2 : kv.1 ≠ k) :
    kv ∈ jsMapSet m k v := by
  by_cases hk : k ∈ m.map Prod.fst
  · rw [jsMapSet, if_pos hk]
    refine List.mem_map.mpr ⟨kv, h1, ?_⟩
    rw [if_neg h2]
  · rw [jsMapSet, if_neg hk]
    exact List.mem_append_left _ h1

lemma jsMapSet_mem_elim (m : List (String × Photo)) (k : String) (v : Photo)
    (kv : String × Photo) (h : kv ∈ jsMapSet m k v) :
    kv = (k, v) ∨ (kv ∈ m ∧ kv.1 ≠ k) := by
  by_cases hk : k ∈ m.map Prod.fst
  · rw [jsMapSet, if_pos hk] at h
    rcases List.mem_map.mp h with ⟨kv0, hkv0, heq⟩
    by_cases h0 : kv0.1 = k
    · left
      rw [← heq, if_pos h0]
    · right
      rw [← heq, if_neg h0]
      exact ⟨hkv0, h0⟩
  · rw [jsMapSet, if_neg hk] at h
    rcases List.mem_append.mp h with h1 | h1
    · right
      refine ⟨h1, ?_⟩
      intro hc
      exact hk (hc ▸ List.mem_map_of_mem Prod.fst h1)
    · left
      exact List.mem_singleton.mp h1

lemma jsMapSet_keys (m : List (String × Photo)) (k : String) (v : Photo) :
    (jsMapSet m k v).map Prod.fst =
      if k ∈ m.map Prod.fst then m.map Prod.fst
      else m.map Prod.fst ++ [k] := by
  by_cases hk : k ∈ m.map Prod.fst
  · rw [jsMapSet, if_pos hk, if_pos hk, List.map_map]
    apply List.map_congr_left
    intro kv _
    by_cases hkv : kv.1 = k
    · simp [Function.comp, hkv]
    · simp [Function.comp, hkv]
  · rw [jsMapSet, if_neg hk, if_neg hk, List.map_append]
    rfl

lemma jsMapSet_keys_mem (m : List (String × Photo)) (k : String) (v : Photo)
    (i : String) :
    i ∈ (jsMapSet m k v).map Prod.fst ↔ i ∈ m.map Prod.fst ∨ i = k := by
  rw [jsMapSet_keys]
  by_cases hk : k ∈ m.map Prod.fst
  · rw [if_pos hk]
    constructor
    · exact Or.inl
    · rintro (h | rfl)
      · exact h
      · exact hk
  · rw [if_neg hk]
    simp

lemma jsMapSetAll_nil (m : List (String × Photo)) : jsMapSetAll m [] = m := rfl

lemma jsMapSetAll_cons (m : List (String × Photo)) (p : Photo)
    (ps : List Photo) :
    jsMapSetAll m (p :: ps) = jsMapSetAll (jsMapSet m p.id p) ps := rfl

lemma jsMapSetAll_keys_mem (ps : List Photo) :
    ∀ (m : List (String × Photo)) (i : String),
      i ∈ (jsMapSetAll m ps).map Prod.fst ↔
        i ∈ m.map Prod.fst ∨ i ∈ ps.map Photo.id := by
  induction ps with
  | nil =>
      intro m i
      simp [jsMapSetAll_nil]
  | cons p ps ih =>
      intro m i
      rw [jsMapSetAll_cons, ih, jsMapSet_keys_mem]
      simp [or_assoc]

lemma jsMapSetAll_keys_nodup (ps : List Photo) :
    ∀ m : List (String × Photo), (m.map Prod.fst).Nodup →
      ((jsMapSetAll m ps).map Prod.fst).Nodup := by
  induction ps with
  | nil =>
      intro m h
      exact h
  | cons p ps ih =>
      intro m h
      rw [jsMapSetAll_cons]
      apply ih
      rw [jsMapSet_keys]
      by_cases hk : p.id ∈ m.map Prod.fst
      · rw [if_pos hk]
        exact h
      · rw [if_neg hk]
        simp [List.nodup_append, h, hk]

lemma jsMapSetAll_good (ps : List Photo) :
    ∀ m : List (String × Photo), goodMap m → goodMap (jsMapSetAll m ps) := by
  induction ps with
  | nil =>
      intro m h
      exact h
  | cons p ps ih =>
      intro m h
      rw [jsMapSetAll_cons]
      apply ih
      intro kv hkv
      rcases jsMapSet_mem_elim m p.id p kv hkv with heq | ⟨hm, _⟩
      · rw [heq]
      · exact h kv hm

lemma jsMapSetAll_mem_of_fresh (ps : List Photo) :
    ∀ (m : List (String × Photo)) (k : String) (v : Photo),
      k ∉ ps.map Photo.id → ((k, v) ∈ jsMapSetAll m ps ↔ (k, v) ∈ m) := by
  induction ps with
  | nil =>
      intro m k v _
      exact Iff.rfl
  | cons p ps ih =>
      intro m k v hk
      have hk1 : k ≠ p.id := by
        intro hc
        exact hk (by simp [hc])
      have hk2 : k ∉ ps.map Photo.id := by
        intro hc
        exact hk (by simp [hc])
      rw [jsMapSetAll_cons, ih (jsMapSet m p.id p) k v hk2]
      constructor
      · intro h
        rcases jsMapSet_mem_elim m p.id p (k, v) h with heq | ⟨hm, _⟩
        · exact absurd (congrArg Prod.fst heq) hk1
        · exact hm
      · intro h
        exact jsMapSet_mem_of_ne m p.id p (k, v) h hk1

lemma jsMapSetAll_lookup (ps : List Photo) :
    ∀ (m : List (String × Photo)) (p : Photo), (ps.map Photo.id).Nodup →
      p ∈ ps → ∀ (k : String) (v : Photo),
        (k, v) ∈ jsMapSetAll m ps → k = p.id → v = p := by
  induction ps with
  | nil =>
      intro m p _ hp
      cases hp
  | cons x xs ih =>
      intro m p hnodup hp k v hmem hk
      rw [List.map_cons, List.nodup_cons] at hnodup
      rcases List.mem_cons.mp hp with rfl | hp
      · have hfresh : k ∉ xs.map Photo.id := by
          rw [hk]
          exact hnodup.1
        rw [jsMapSetAll_cons,
          jsMapSetAll_mem_of_fresh xs (jsMapSet m p.id p) k v hfresh] at hmem
        rcases jsMapSet_mem_elim m p.id p (k, v) hmem with heq | ⟨_, hne⟩
        · exact congrArg Prod.snd heq
        · exact absurd hk hne
      · rw [jsMapSetAll_cons] at hmem
        exact ih (jsMapSet m x.id x) p hnodup.2 hp k v hmem hk

lemma jsMapSetAll_mem_self (ps : List Photo) :
    ∀ (m : List (String × Photo)) (p : Photo), (ps.map Photo.id).Nodup →
      p ∈ ps → (p.id, p) ∈ jsMapSetAll m ps := by
  induction ps with
  | nil =>
      intro m p _ hp
      cases hp
  | cons x xs ih =>
      intro m p hnodup hp
      rw [List.map_cons, List.nodup_cons] at hnodup
      rcases List.mem_cons.mp hp with rfl | hp
      · rw [jsMapSetAll_cons,
          jsMapSetAll_mem_of_fresh xs (jsMapSet m p.id p) p.id p hnodup.1]
        exact jsMapSet_self_mem m p.id p
      · rw [jsMapSetAll_cons]
        exact ih (jsMapSet m x.id x) p hnodup.2 hp

lemma gallery_ids_eq_keys (m : List (String × Photo)) (hgood : goodMap m) :
    (m.map Prod.snd).map Photo.id = m.map Prod.fst := by
  rw [List.map_map]
  exact List.map_congr_left (fun kv hkv => hgood kv hkv)

lemma exists_id_iff_mem_map (l : List Photo) (i : String) :
    (∃ q ∈ l, q.id = i) ↔ i ∈ l.map Photo.id :=
  List.mem_map.symm

/- ------------------------------------------------------------------ -/
/- Claims                                                              -/
/- ------------------------------------------------------------------ -/

/-- C1: if a photo of the active collection had a falsy `isPublic` and
`handleToggleShare` leaves it with `isPublic = true`, then the resulting
photo is in the returned collection and its `location` is non-null (the
embedding's `PhotoLocation` always carries both a latitude and a
longitude, so a non-null location has both coordinates set). -/
theorem c1_toggleShare_public_photo_has_location (r1 r2 : ℚ)
    (targetId : String) (photos : List Photo) (p : Photo)
    (hmem : p ∈ photos)
    (hfalse : p.isPublic.getD false = false)
    (htrue : (toggleSharePhoto r1 r2 targetId p).isPublic = some true) :
    toggleSharePhoto r1 r2 targetId p ∈ handleToggleShare r1 r2 targetId photos ∧
    (toggleSharePhoto r1 r2 targetId p).location.isSome = true := by
  refine ⟨List.mem_map_of_mem _ hmem, ?_⟩
  exact toggleSharePhoto_location_isSome r1 r2 targetId p hfalse htrue

/-- Witness for C1 at a concrete photo with no location. -/
theorem c1_witness :
    let p : Photo :=
      { id := "a", dataUrl := "d", timestamp := 0, x := 0, y := 0, rotation := 0 }
    toggleSharePhoto 0 0 "a" p ∈ handleToggleShare 0 0 "a" [p] ∧
    (toggleSharePhoto 0 0 "a" p).location.isSome = true := by
  exact c1_toggleShare_public_photo_has_location 0 0 "a" _ _
    (by decide) (by decide) (by decide)

/-- C2: for a user collection with unique ids, `getGlobalGallery` yields a
gallery whose ids are pairwise distinct (exactly one entry per id), and a
public photo of the user's local collection whose id also occurs in the
remote/fallback input is itself in the gallery and is the only entry with
its id — the local copy's fields win over the remote/fallback copy. -/
theorem c2_getGlobalGallery_dedup_local_copy_wins (now : ℤ)
    (remoteFetched pool user : List Photo)
    (huser : (user.map Photo.id).Nodup)
    (p : Photo) (hp : p ∈ user) (hpub : p.isPublic.getD false = true)
    (_hoverlap : p.id ∈ ((if remoteFetched.length = 0 then
        INITIAL_COMMUNITY_PHOTOS now ++ pool else remoteFetched).map Photo.id)) :
    ((getGlobalGallery now remoteFetched pool user).map Photo.id).Nodup ∧
    p ∈ getGlobalGallery now remoteFetched pool user ∧
    (∀ q ∈ getGlobalGallery now remoteFetched pool user, q.id = p.id → q = p) := by
  have hgal : getGlobalGallery now remoteFetched pool user =
      (jsMapSetAll
        (jsMapSetAll [] (if remoteFetched.length = 0 then
          INITIAL_COMMUNITY_PHOTOS now ++ pool else remoteFetched))
        (user.filter (fun r => r.isPublic.getD false))).map Prod.snd := rfl
  have hupn : ((user.filter (fun r => r.isPublic.getD false)).map Photo.id).Nodup := by
    have hsub : List.Sublist
        ((user.filter (fun r => r.isPublic.getD false)).map Photo.id)
        (user.map Photo.id) :=
      (List.filter_sublist user).map Photo.id
    exact huser.sublist hsub
  have hpin : p ∈ user.filter (fun r => r.isPublic.getD false) :=
    List.mem_filter.mpr ⟨hp, by simp [hpub]⟩
  have hgood : goodMap (jsMapSetAll
      (jsMapSetAll [] (if remoteFetched.length = 0 then
        INITIAL_COMMUNITY_PHOTOS now ++ pool else remoteFetched))
      (user.filter (fun r => r.isPublic.getD false))) := by
    apply jsMapSetAll_good
    apply jsMapSetAll_good
    intro kv hkv
    exact absurd hkv (List.not_mem_nil kv)
  refine ⟨?_, ?_, ?_⟩
  · rw [hgal, gallery_ids_eq_keys _ hgood]
    apply jsMapSetAll_keys_nodup
    apply jsMapSetAll_keys_nodup
    simp
  · rw [hgal]
    exact List.mem_map_of_mem Prod.snd
      (jsMapSetAll_mem_self (user.filter (fun r => r.isPublic.getD false))
        _ p hupn hpin)
  · intro q hq hqid
    rw [hgal] at hq
    rcases List.mem_map.mp hq with ⟨kv, hkv, hkvq⟩
    have hkey : kv.1 = p.id := by
      rw [← hgood kv hkv, hkvq, hqid]
    have hv : kv.2 = p :=
      jsMapSetAll_lookup (user.filter (fun r => r.isPublic.getD false))
        _ p hupn hpin kv.1 kv.2 (by simpa using hkv) hkey
    rw [← hkvq]
    exact hv

/-- Witness for C2: the user's local copy of "case-tokyo" (still marked
public) beats the seed copy when the remote fetch comes back empty. -/
theorem c2_witness :
    let localTokyo : Photo :=
      { id := "case-tokyo", dataUrl := "local", timestamp := 9, x := 1, y := 1,
        rotation := 0, caption := some "mine", isPublic := some true }
    ((getGlobalGallery 0 [] [] [localTokyo]).map Photo.id).Nodup ∧
    localTokyo ∈ getGlobalGallery 0 [] [] [localTokyo] ∧
    (∀ q ∈ getGlobalGallery 0 [] [] [localTokyo], q.id = localTokyo.id →
      q = localTokyo) := by
  exact c2_getGlobalGallery_dedup_local_copy_wins 0 [] []
    [{ id := "case-tokyo", dataUrl := "local", timestamp := 9, x := 1, y := 1,
       rotation := 0, caption := some "mine", isPublic := some true }]
    (by decide) _ (by decide) (by decide) (by decide)

/-- C3: starting from a progress value at most 100, any sequence of timer
ticks and shake boosts keeps `developmentProgress` at most 100 and
non-decreasing (each longer prefix of the event list yields a value no
smaller); and the value written back on unmount via `updatePhotoProgress`
is stored verbatim as the matching photo's `developmentProgress`. -/
theorem c3_development_progress_monotone_clamped (start : ℚ)
    (hstart : start ≤ 100) (events : List DevEvent) (n m : ℕ) (hnm : n ≤ m)
    (targetId : String) (v : ℚ) (photos : List Photo) (q : Photo)
    (hq : q ∈ updatePhotoProgress targetId v photos) (hid : q.id = targetId) :
    runDev start events ≤ 100 ∧
    runDev start (events.take n) ≤ runDev start (events.take m) ∧
    q.developmentProgress = some v := by
  refine ⟨runDev_le_100 start hstart events,
    runDev_take_mono start hstart events n m hnm, ?_⟩
  rcases List.mem_map.mp hq with ⟨p, _, hpq⟩
  by_cases hp : p.id = targetId
  · rw [← hpq]
    simp [hp]
  · rw [← hpq] at hid ⊢
    simp only [hp, if_neg hp] at hid ⊢
    exact absurd hid hp

/-- Witness for C3 at a concrete event sequence and collection. -/
theorem c3_witness :
    runDev 0 [DevEvent.tick, DevEvent.shake, DevEvent.tick] ≤ 100 ∧
    runDev 0 ([DevEvent.tick, DevEvent.shake, DevEvent.tick].take 1) ≤
      runDev 0 ([DevEvent.tick, DevEvent.shake, DevEvent.tick].take 3) ∧
    Photo.developmentProgress
      { id := "a", dataUrl := "d", timestamp := 0, x := 0, y := 0,
        rotation := 0, developmentProgress := some 42 } = some 42 := by
  exact c3_development_progress_monotone_clamped 0 (by norm_num)
    [DevEvent.tick, DevEvent.shake, DevEvent.tick] 1 3 (by norm_num)
    "a" 42 [{ id := "a", dataUrl := "d", timestamp := 0, x := 0, y := 0, rotation := 0 }]
    { id := "a", dataUrl := "d", timestamp := 0, x := 0, y := 0,
      rotation := 0, developmentProgress := some 42 }
    (by decide) (by decide)

/-- C4: `capture` inserts the new photo immediately with a pending caption
flag and zero development progress; once the captioning call settles
(`some c` on success, `none` on failure), the new photo's caption is
patched and the pending flag cleared in either case, a failure leaving the
caption empty (`result.getD ""` because the caption started as `""`). -/
theorem c4_capture_then_caption_settles (id dataUrl : String) (now : ℤ)
    (startX startY rot : ℚ) (ambient : Option PhotoLocation)
    (photos : List Photo) (hfresh : ∀ p ∈ photos, p.id ≠ id)
    (result : Option String) :
    let np := capturePhoto id dataUrl now startX startY rot ambient
    let inserted := handleCaptureInsert np photos
    (np ∈ inserted ∧ np.isGeneratingCaption = some true ∧
     np.developmentProgress = some 0 ∧ np.caption = some "") ∧
    ∀ q ∈ resolveCaption id result inserted, q.id = id →
      q.isGeneratingCaption = some false ∧ q.caption = some (result.getD "") := by
  intro np inserted
  refine ⟨⟨List.mem_append_right photos (List.mem_singleton_self np),
    rfl, rfl, rfl⟩, ?_⟩
  intro q hq hqid
  have hnp : np.id = id := rfl
  cases result with
  | some caption =>
      rcases List.mem_map.mp hq with ⟨p, hp, hpq⟩
      rcases List.mem_append.mp hp with hleft | hright
      · by_cases hpid : p.id = id
        · exact absurd hpid (hfresh p hleft)
        · rw [← hpq] at hqid
          simp only [if_neg hpid] at hqid
          exact absurd hqid hpid
      · have hpnp : p = np := List.mem_singleton.mp hright
        rw [← hpq, hpnp]
        simp [hnp]
  | none =>
      rcases List.mem_map.mp hq with ⟨p, hp, hpq⟩
      rcases List.mem_append.mp hp with hleft | hright
      · by_cases hpid : p.id = id
        · exact absurd hpid (hfresh p hleft)
        · rw [← hpq] at hqid
          simp only [if_neg hpid] at hqid
          exact absurd hqid hpid
      · have hpnp : p = np := List.mem_singleton.mp hright
        rw [← hpq, hpnp]
        exact ⟨by simp [hnp], by simp [hnp]; rfl⟩

/-- Witness for C4: capturing into an empty collection, caption failing. -/
theorem c4_witness :
    let np := capturePhoto "a" "d" 5 1 2 3 none
    let inserted := handleCaptureInsert np []
    (np ∈ inserted ∧ np.isGeneratingCaption = some true ∧
     np.developmentProgress = some 0 ∧ np.caption = some "") ∧
    ∀ q ∈ resolveCaption "a" none inserted, q.id = "a" →
      q.isGeneratingCaption = some false ∧
      q.caption = some ((none : Option String).getD "") := by
  exact c4_capture_then_caption_settles "a" "d" 5 1 2 3 none []
    (by intro p hp; cases hp) none

/-- C5: for positive dimensions, an image whose longer dimension is at most
`maxWidth` keeps its dimensions unchanged, while an oversized image is
scaled so that its longer output dimension equals `maxWidth` exactly and
the aspect ratio is preserved (`outW * height = outH * width`). -/
theorem c5_compressImage_clamps_longer_dimension (width height maxWidth : ℚ)
    (hw : 0 < width) (hh : 0 < height) (hm : 0 < maxWidth) :
    (max width height ≤ maxWidth →
      compressImageDims width height maxWidth = (width, height)) ∧
    (maxWidth < max width height →
      max (compressImageDims width height maxWidth).1
          (compressImageDims width height maxWidth).2 = maxWidth ∧
      (compressImageDims width height maxWidth).1 * height =
        (compressImageDims width height maxWidth).2 * width) := by
  constructor
  · intro hle
    rw [max_le_iff] at hle
    by_cases hwh : width > height
    · rw [compressImageDims, if_pos hwh, if_neg (not_lt.mpr hle.1)]
    · rw [compressImageDims, if_neg hwh, if_neg (not_lt.mpr hle.2)]
  · intro hgt
    by_cases hwh : width > height
    · have hwide : width > maxWidth := by
        rw [max_eq_left (le_of_lt hwh)] at hgt
        exact hgt
      rw [compressImageDims, if_pos hwh, if_pos hwide]
      constructor
      · have hscaled : height * (maxWidth / width) < maxWidth := by
          rw [div_eq_mul_inv, ← mul_assoc]
          have hlt : height * maxWidth < width * maxWidth :=
            mul_lt_mul_of_pos_right hwh hm
          calc height * maxWidth * width⁻¹
              < width * maxWidth * width⁻¹ :=
                mul_lt_mul_of_pos_right hlt (inv_pos.mpr hw)
            _ = maxWidth := by field_simp
        simpa using le_of_lt hscaled
      · field_simp
        ring
    · have htall : height > maxWidth := by
        rw [max_eq_right (not_lt.mp hwh)] at hgt
        exact hgt
      rw [compressImageDims, if_neg hwh, if_pos htall]
      constructor
      · have hscaled : width * (maxWidth / height) ≤ maxWidth := by
          rw [div_eq_mul_inv, ← mul_assoc]
          have hle : width * maxWidth ≤ height * maxWidth :=
            mul_le_mul_of_nonneg_right (not_lt.mp hwh) (le_of_lt hm)
          calc width * maxWidth * height⁻¹
              ≤ height * maxWidth * height⁻¹ :=
                mul_le_mul_of_nonneg_right hle (le_of_lt (inv_pos.mpr hh))
            _ = maxWidth := by field_simp
        simpa using hscaled
      · field_simp
        ring

/-- Witness for C5: a 400×300 image is untouched at maxWidth 800; the
oversized branch is exercised through the same instance's conjunction. -/
theorem c5_witness :
    (max (400 : ℚ) 300 ≤ 800 → compressImageDims 400 300 800 = (400, 300)) ∧
    ((800 : ℚ) < max 400 300 →
      max (compressImageDims 400 300 800).1 (compressImageDims 400 300 800).2 = 800 ∧
      (compressImageDims 400 300 800).1 * 300 =
        (compressImageDims 400 300 800).2 * 400) := by
  exact c5_compressImage_clamps_longer_dimension 400 300 800
    (by norm_num) (by norm_num) (by norm_num)

/-- C6: when the remote fetch yielded zero photos, `getGlobalGallery` draws
from the curated seed set unioned with the local fallback pool, then unions
in the caller's own public photos: an id occurs in the result exactly when
it occurs in `INITIAL_COMMUNITY_PHOTOS ++ pool` or among the user's public
photos; and the result is non-empty whenever the seed set is non-empty. -/
theorem c6_getGlobalGallery_seed_fallback (now : ℤ)
    (remoteFetched pool user : List Photo) (hremote : remoteFetched = []) :
    (∀ i : String,
      (∃ q ∈ getGlobalGallery now remoteFetched pool user, q.id = i) ↔
        ((∃ q ∈ INITIAL_COMMUNITY_PHOTOS now ++ pool, q.id = i) ∨
         (∃ q ∈ user.filter (fun r => r.isPublic.getD false), q.id = i))) ∧
    (INITIAL_COMMUNITY_PHOTOS now ≠ [] →
      getGlobalGallery now remoteFetched pool user ≠ []) := by
  subst hremote
  have hgal : getGlobalGallery now [] pool user =
      (jsMapSetAll (jsMapSetAll [] (INITIAL_COMMUNITY_PHOTOS now ++ pool))
        (user.filter (fun r => r.isPublic.getD false))).map Prod.snd := rfl
  have hgood : goodMap
      (jsMapSetAll (jsMapSetAll [] (INITIAL_COMMUNITY_PHOTOS now ++ pool))
        (user.filter (fun r => r.isPublic.getD false))) := by
    apply jsMapSetAll_good
    apply jsMapSetAll_good
    intro kv hkv
    exact absurd hkv (List.not_mem_nil kv)
  have hdom : ∀ i : String,
      (∃ q ∈ getGlobalGallery now [] pool user, q.id = i) ↔
        ((∃ q ∈ INITIAL_COMMUNITY_PHOTOS now ++ pool, q.id = i) ∨
         (∃ q ∈ user.filter (fun r => r.isPublic.getD false), q.id = i)) := by
    intro i
    rw [exists_id_iff_mem_map, exists_id_iff_mem_map, exists_id_iff_mem_map,
      hgal, gallery_ids_eq_keys _ hgood, jsMapSetAll_keys_mem,
      jsMapSetAll_keys_mem]
    simp
  refine ⟨hdom, ?_⟩
  intro _ hnil
  have hex : ∃ q ∈ getGlobalGallery now [] pool user, q.id = "case-tokyo" :=
    (hdom "case-tokyo").mpr
      (Or.inl ⟨caseTokyo now,
        List.mem_append_left pool (List.mem_cons_self _ _), rfl⟩)
  rcases hex with ⟨q, hq, _⟩
  rw [hnil] at hq
  exact List.not_mem_nil q hq

/-- Witness for C6 with an empty remote fetch, pool and user collection. -/
theorem c6_witness :
    (∀ i : String,
      (∃ q ∈ getGlobalGallery 0 [] [] [], q.id = i) ↔
        ((∃ q ∈ INITIAL_COMMUNITY_PHOTOS 0 ++ [], q.id = i) ∨
         (∃ q ∈ ([] : List Photo).filter (fun r => r.isPublic.getD false),
           q.id = i))) ∧
    (INITIAL_COMMUNITY_PHOTOS 0 ≠ [] → getGlobalGallery 0 [] [] [] ≠ []) := by
  exact c6_getGlobalGallery_seed_fallback 0 [] [] [] rfl

/-- C7: `getUserPhotos` is a total function (never throws): it returns the
parsed stored list when the stored value parses, and the empty list when
the key is absent or the stored value is unparseable.  The hypothesis
`hempty` records that the JSON collaborator rejects the empty string (as
`JSON.parse("")` does), which the code's truthiness shortcut relies on. -/
theorem c7_getUserPhotos_total_with_empty_fallback (stored : Option String)
    (parsePhotos : String → Except String (List Photo))
    (hempty : ∀ l, parsePhotos "" ≠ Except.ok l) :
    (stored = none → getUserPhotos stored parsePhotos = []) ∧
    (∀ s l, stored = some s → parsePhotos s = Except.ok l →
      getUserPhotos stored parsePhotos = l) ∧
    (∀ s e, stored = some s → parsePhotos s = Except.error e →
      getUserPhotos stored parsePhotos = []) := by
  refine ⟨fun h => by rw [h]; rfl, ?_, ?_⟩
  · intro s l hs hok
    rw [hs]
    by_cases hnil : s = ""
    · rw [hnil] at hok
      exact absurd hok (hempty l)
    · simp [getUserPhotos, hnil, hok]
  · intro s e hs herr
    rw [hs]
    by_cases hnil : s = ""
    · simp [getUserPhotos, hnil]
    · simp [getUserPhotos, hnil, herr]

/-- Witness for C7 with a concrete parse collaborator and corrupt input. -/
theorem c7_witness :
    ((some "garbage" : Option String) = none →
      getUserPhotos (some "garbage")
        (fun s => if s = "[]" then Except.ok [] else Except.error "bad") = []) ∧
    (∀ s l, (some "garbage" : Option String) = some s →
      (if s = "[]" then Except.ok ([] : List Photo) else Except.error "bad") =
        Except.ok l →
      getUserPhotos (some "garbage")
        (fun s => if s = "[]" then Except.ok [] else Except.error "bad") = l) ∧
    (∀ s e, (some "garbage" : Option String) = some s →
      (if s = "[]" then Except.ok ([] : List Photo) else Except.error "bad") =
        Except.error e →
      getUserPhotos (some "garbage")
        (fun s => if s = "[]" then Except.ok [] else Except.error "bad") = []) := by
  exact c7_getUserPhotos_total_with_empty_fallback (some "garbage")
    (fun s => if s = "[]" then Except.ok [] else Except.error "bad")
    (by intro l h; simp at h)

/-- C8: for the photo at any position of the collection, `handleEditPhoto`
preserves `id` and `timestamp` in every outcome; a photo whose id is not
the target is unchanged; a null/failed restyle result leaves `dataUrl`
intact; and the target photo's pending flag ends cleared. -/
theorem c8_editPhoto_null_keeps_image_and_frame (targetId : String)
    (newImageData : Option String) (photos : List Photo) (j : ℕ) (p : Photo)
    (hp : photos[j]? = some p) :
    ∃ q, (handleEditPhoto targetId newImageData photos)[j]? = some q ∧
      q.id = p.id ∧ q.timestamp = p.timestamp ∧
      (p.id ≠ targetId → q = p) ∧
      (newImageData = none → q.dataUrl = p.dataUrl) ∧
      (p.id = targetId → q.isGeneratingCaption = some false) := by
  by_cases hany : photos.any (fun p => p.id = targetId) = true
  · have hmap : handleEditPhoto targetId newImageData photos =
        photos.map (fun r =>
          if r.id = targetId then
            { r with dataUrl := jsOrElse newImageData r.dataUrl
                   , isGeneratingCaption := some false }
          else r) := by
      simp only [handleEditPhoto, if_pos hany, editPhotoFinish, editPhotoStart,
        List.map_map]
      apply List.map_congr_left
      intro r _
      by_cases hid : r.id = targetId
      · simp [Function.comp, hid]
      · simp [Function.comp, hid]
    refine ⟨if p.id = targetId then
        { p with dataUrl := jsOrElse newImageData p.dataUrl
               , isGeneratingCaption := some false } else p, ?_, ?_⟩
    · rw [hmap]
      simp [List.getElem?_map, hp]
    · by_cases hid : p.id = targetId
      · rw [if_pos hid]
        exact ⟨rfl, rfl, fun h => absurd hid h, fun hn => by rw [hn]; rfl,
          fun _ => rfl⟩
      · rw [if_neg hid]
        exact ⟨rfl, rfl, fun _ => rfl, fun _ => rfl, fun h => absurd h hid⟩
  · have hall : ∀ r ∈ photos, ¬(r.id = targetId) := by
      intro r hr
      intro hcontra
      exact hany (List.any_eq_true.mpr ⟨r, hr, decide_eq_true hcontra⟩)
    have hpid : p.id ≠ targetId := hall p (List.getElem?_mem hp)
    refine ⟨p, ?_, rfl, rfl, fun _ => rfl, fun _ => rfl, fun h => absurd h hpid⟩
    simp only [handleEditPhoto, if_neg hany, editPhotoStart, List.getElem?_map,
      hp, Option.map_some', if_neg hpid]

/-- Witness for C8: a one-photo collection whose restyle of "a" fails. -/
theorem c8_witness :
    let pa : Photo :=
      { id := "a", dataUrl := "da", timestamp := 1, x := 0, y := 0, rotation := 0 }
    ∃ q, (handleEditPhoto "a" none [pa])[0]? = some q ∧
      q.id = pa.id ∧ q.timestamp = pa.timestamp ∧
      (pa.id ≠ "a" → q = pa) ∧
      ((none : Option String) = none → q.dataUrl = pa.dataUrl) ∧
      (pa.id = "a" → q.isGeneratingCaption = some false) := by
  exact c8_editPhoto_null_keeps_image_and_frame "a" none
    [{ id := "a", dataUrl := "da", timestamp := 1, x := 0, y := 0, rotation := 0 }]
    0 _ (by decide)

/-- C9: every controller operation applied to an id that no photo of the
active collection carries returns the collection unchanged (and, being a
total function of the embedding, cannot throw). -/
theorem c9_unknown_id_operations_are_noops (targetId : String)
    (photos : List Photo) (h : ∀ p ∈ photos, p.id ≠ targetId)
    (x y v r1 r2 : ℚ) (newImageData : Option String) :
    updatePhotoPosition targetId x y photos = photos ∧
    updatePhotoProgress targetId v photos = photos ∧
    deletePhoto targetId photos = photos ∧
    handleEditPhoto targetId newImageData photos = photos ∧
    handleToggleShare r1 r2 targetId photos = photos := by
  have hstart : editPhotoStart targetId photos = photos :=
    map_id_of_unknown_id targetId photos _ h
  refine ⟨map_id_of_unknown_id targetId photos _ h,
    map_id_of_unknown_id targetId photos _ h, ?_, ?_, ?_⟩
  · apply List.filter_eq_self.mpr
    intro p hp
    simpa using h p hp
  · have hany : ¬(photos.any (fun p => p.id = targetId) = true) := by
      intro hcontra
      rcases List.any_eq_true.mp hcontra with ⟨p, hp, hdec⟩
      exact h p hp (of_decide_eq_true hdec)
    simp only [handleEditPhoto, if_neg hany]
    exact hstart
  · have : ∀ p ∈ photos, toggleSharePhoto r1 r2 targetId p = p := by
      intro p hp
      exact toggleSharePhoto_of_ne r1 r2 targetId p (h p hp)
    rw [handleToggleShare, List.map_congr_left this]
    exact List.map_id photos

/-- Witness for C9: a one-photo collection and an id it does not contain. -/
theorem c9_witness :
    let p : Photo :=
      { id := "a", dataUrl := "d", timestamp := 0, x := 0, y := 0, rotation := 0 }
    updatePhotoPosition "b" 1 2 [p] = [p] ∧
    updatePhotoProgress "b" 3 [p] = [p] ∧
    deletePhoto "b" [p] = [p] ∧
    handleEditPhoto "b" (some "e") [p] = [p] ∧
    handleToggleShare 0 0 "b" [p] = [p] := by
  exact c9_unknown_id_operations_are_noops "b"
    [{ id := "a", dataUrl := "d", timestamp := 0, x := 0, y := 0, rotation := 0 }]
    (by decide) 1 2 3 0 0 (some "e")

/-- C10: when `handleToggleShare` makes a photo public and the photo's
existing location has latitude exactly 0, the presence check
`!p.location.lat` treats that latitude as missing, so the real location is
discarded and replaced by the synthesized placeholder whose coordinates lie
within 1/2 of (35.6762, 139.6503); in particular the result differs from
the stored location. -/
theorem c10_toggleShare_zero_latitude_discarded (r1 r2 : ℚ)
    (targetId : String) (p : Photo) (l : PhotoLocation)
    (hid : p.id = targetId)
    (hfalse : p.isPublic.getD false = false)
    (hloc : p.location = some l)
    (hlat : l.lat = 0)
    (hr1 : 0 ≤ r1 ∧ r1 < 1) (hr2 : 0 ≤ r2 ∧ r2 < 1) :
    (toggleSharePhoto r1 r2 targetId p).location =
      some (synthesizedLocation r1 r2) ∧
    |(synthesizedLocation r1 r2).lat - 356762 / 10000| ≤ 1 / 2 ∧
    |(synthesizedLocation r1 r2).lng - 1396503 / 10000| ≤ 1 / 2 ∧
    (toggleSharePhoto r1 r2 targetId p).location ≠ some l := by
  have hmiss : locationLatMissing p.location = true := by
    simp [locationLatMissing, hloc, hlat]
  have hstep : toggleSharePhoto r1 r2 targetId p =
      { p with isPublic := some true, location := some (synthesizedLocation r1 r2) } := by
    simp [toggleSharePhoto, hid, hfalse, hmiss]
  refine ⟨by rw [hstep], ?_, ?_, ?_⟩
  · rw [abs_le]
    constructor <;> simp [synthesizedLocation] <;> linarith [hr1.1, hr1.2]
  · rw [abs_le]
    constructor <;> simp [synthesizedLocation] <;> linarith [hr2.1, hr2.2]
  · rw [hstep]
    intro h
    simp only [Option.some.injEq] at h
    have : (synthesizedLocation r1 r2).lat = l.lat := by rw [h]
    rw [hlat] at this
    simp only [synthesizedLocation] at this
    linarith [hr1.1, hr1.2]

/-- Witness for C10 at a concrete equator-located photo. -/
theorem c10_witness :
    let l : PhotoLocation := { lat := 0, lng := 7 }
    let p : Photo :=
      { id := "a", dataUrl := "d", timestamp := 0, x := 0, y := 0,
        rotation := 0, location := some l }
    (toggleSharePhoto (1/4) (1/4) "a" p).location =
      some (synthesizedLocation (1/4) (1/4)) ∧
    |(synthesizedLocation (1/4) (1/4)).lat - 356762 / 10000| ≤ 1 / 2 ∧
    |(synthesizedLocation (1/4) (1/4)).lng - 1396503 / 10000| ≤ 1 / 2 ∧
    (toggleSharePhoto (1/4) (1/4) "a" p).location ≠ some l := by
  exact c10_toggleShare_zero_latitude_discarded (1/4) (1/4) "a" _ _
    (by decide) (by decide) (by decide) (by decide)
    (by constructor <;> norm_num) (by constructor <;> norm_num)
